import Mathlib

/-!
A shallow embedding of the QAE-risk result-extraction and calibration pipeline
(`src/problems/03_qae_risk/python/analyze.py` and
`src/problems/03_qae_risk/python/update_calibration_history.py`).

Python strings are modelled as `List Char`; Python `re` patterns are hand
compiled to matchers with the same greedy/backtracking behaviour; Python
numbers are modelled exactly as `ℚ` (for the computable parsing layer) and as
`ℝ` (for the trigonometric / square-root statistics, which are floating point
in the source and idealised over the reals here); JSON values are the small
`JVal` type; fallible Python code returns `Option`/`Except`.
-/

namespace QaeRisk

/-- Model of Python's `\s` / `str.strip` whitespace on the ASCII range. -/
def isPySpace (c : Char) : Bool :=
  c = ' ' || c = '\t' || c = '\n' || c = '\r' || c = '\x0b' || c = '\x0c'

/-- Model of Python's `\d` (ASCII decimal digits). -/
def isPyDigit (c : Char) : Bool :=
  '0' ≤ c && c ≤ '9'

/-- Numeric value of a decimal digit character. -/
def digitVal (c : Char) : ℕ := c.toNat - 48

/-- Numeric value of a list of decimal digit characters (most significant first). -/
def digitsVal (ds : List Char) : ℕ :=
  ds.foldl (fun acc c => acc * 10 + digitVal c) 0

/-- `str.strip()` on the character-list model. -/
def strTrim (cs : List Char) : List Char :=
  ((cs.dropWhile isPySpace).reverse.dropWhile isPySpace).reverse

/-- Match a literal character sequence at the head of the input, returning the rest. -/
def expectLit : List Char → List Char → Option (List Char)
  | [], cs => some cs
  | _ :: _, [] => none
  | l :: ls, c :: cs => if c = l then expectLit ls cs else none

/-- A JSON value as the two Python scripts see one.  A key read with
`dict.get` that is missing yields Python `None`, exactly like an explicit
JSON `null`, so `null` doubles for "absent". -/
inductive JVal
  | null
  | bool (b : Bool)
  | num (q : ℚ)
  | str (s : String)
deriving DecidableEq

/-- A JSON object (Python dict) restricted to the flat string-keyed lookups
the scripts perform. -/
abbrev JDict := List (String × JVal)

/-- `d.get(k)`: the first binding of `k`, `None` when there is none. -/
def jget (d : JDict) (k : String) : JVal :=
  match d.find? (fun p => p.1 = k) with
  | some p => p.2
  | none => .null

/-- Python truthiness of the JSON values above (`bool(value)`). -/
def truthy : JVal → Bool
  | .null => false
  | .bool b => b
  | .num q => q ≠ 0
  | .str s => s ≠ ""

/-- Python's `a or b` on JSON values: `a` when truthy, else `b`. -/
def pyOr (a b : JVal) : JVal :=
  if truthy a then a else b

/-- The digits of a parsed Python float literal, before evaluation: sign,
integer part, fraction digits (value and count), exponent sign and value. -/
structure FloatLit where
  neg : Bool
  intVal : ℕ
  fracVal : ℕ
  fracLen : ℕ
  expNeg : Bool
  expVal : ℕ
deriving DecidableEq

/-- Grammar of Python `float(str)` on plain decimal/scientific literals
(sign, digits with optional fraction, optional exponent).  Underscored
literals and `inf`/`nan` spellings, which never appear in this pipeline's
numeric fields, are outside the model. -/
def pyFloatParse (cs : List Char) : Option FloatLit :=
  -- optional sign
  let (neg, cs) : Bool × List Char :=
    match cs with
    | '+' :: rest => (false, rest)
    | '-' :: rest => (true, rest)
    | _ => (false, cs)
  let intDs := cs.takeWhile isPyDigit
  let cs := cs.drop intDs.length
  -- optional fraction
  let (fracDs, cs) : List Char × List Char :=
    match cs with
    | '.' :: rest => (rest.takeWhile isPyDigit, rest.drop (rest.takeWhile isPyDigit).length)
    | _ => ([], cs)
  if intDs = [] ∧ fracDs = [] then none else
  -- optional exponent
  match cs with
  | [] => some ⟨neg, digitsVal intDs, digitsVal fracDs, fracDs.length, false, 0⟩
  | e :: rest =>
    if e = 'e' ∨ e = 'E' then
      let (expNeg, rest) : Bool × List Char :=
        match rest with
        | '+' :: r => (false, r)
        | '-' :: r => (true, r)
        | _ => (false, rest)
      let eDs := rest.takeWhile isPyDigit
      if eDs = [] ∨ rest.drop eDs.length ≠ [] then none
      else some ⟨neg, digitsVal intDs, digitsVal fracDs, fracDs.length, expNeg, digitsVal eDs⟩
    else none

/-- Exact rational value of a parsed float literal. -/
def floatLitVal (l : FloatLit) : ℚ :=
  (cond l.neg (-1) 1) * ((l.intVal : ℚ) + (l.fracVal : ℚ) / (10 : ℚ) ^ l.fracLen) *
    (10 : ℚ) ^ (cond l.expNeg (-(l.expVal : ℤ)) (l.expVal : ℤ))

/-- The parsed literal's exact value, `none` on a grammar miss. -/
def pyFloatCore (cs : List Char) : Option ℚ :=
  (pyFloatParse cs).map floatLitVal

/-- Python `float(str)`: surrounding whitespace is stripped, then the literal
grammar applies; failure is `None` (the callers catch `ValueError`). -/
def pyFloat (cs : List Char) : Option ℚ :=
  pyFloatCore (strTrim cs)

/-- `to_float` from `analyze.py` (lines 214-226): strip, treat a comma with no
dot as a decimal point, strip commas when a dot is also present, then convert. -/
def toFloat : Option (List Char) → Option ℚ
  | none => none
  | some value =>
    let normalized := strTrim value
    let normalized :=
      if ',' ∈ normalized ∧ '.' ∉ normalized then
        normalized.map (fun c => if c = ',' then '.' else c)
      else if ',' ∈ normalized ∧ '.' ∈ normalized then
        normalized.filter (fun c => c ≠ ',')
      else normalized
    pyFloat normalized

/-! ### Phase-histogram line scanning

`analyze.py` lines 187-193 run
`re.finditer(r"^\s+Phase\s+(\d+)/(\d+).*:\s+(\d+)\s+times$", text, re.MULTILINE)`.
The hand compilation works line by line: `^` anchors at a line start, the
greedy `\s+` may also reach a line's `Phase …` text from the start of a
preceding whitespace-only line (`\s` matches the newline), `.*` stays within
the line and backtracks from the right, and `$` anchors at the line end. -/

/-- Tail `:\s+(\d+)\s+times$` of the phase-histogram pattern, applied at the
end of a line; yields the count group. -/
def phaseTail (cs : List Char) : Option ℕ :=
  match cs with
  | ':' :: rest =>
    let ws := rest.takeWhile isPySpace
    let rest := rest.drop ws.length
    let ds := rest.takeWhile isPyDigit
    let rest := rest.drop ds.length
    let ws2 := rest.takeWhile isPySpace
    let rest := rest.drop ws2.length
    if ws ≠ [] ∧ ds ≠ [] ∧ ws2 ≠ [] ∧ rest = ['t', 'i', 'm', 'e', 's'] then
      some (digitsVal ds)
    else none
  | _ => none

/-- Greedy `.*` before the tail: the rightmost suffix where `phaseTail`
matches wins, as regex backtracking from the longest `.*` would choose. -/
def lastPhaseTail : List Char → Option ℕ
  | [] => none
  | c :: cs =>
    match lastPhaseTail cs with
    | some n => some n
    | none => phaseTail (c :: cs)

/-- `Phase\s+(\d+)/(\d+).*:\s+(\d+)\s+times$` from the position right after
the leading whitespace: yields (outcome, denominator, count). -/
def phaseCore (cs : List Char) : Option (ℕ × ℕ × ℕ) := do
  let rest ← expectLit ['P', 'h', 'a', 's', 'e'] cs
  let ws := rest.takeWhile isPySpace
  if ws = [] then none else
  let rest := rest.drop ws.length
  let d1 := rest.takeWhile isPyDigit
  if d1 = [] then none else
  let rest := rest.drop d1.length
  match rest with
  | '/' :: rest => do
    let d2 := rest.takeWhile isPyDigit
    if d2 = [] then none else
    let rest := rest.drop d2.length
    let cnt ← lastPhaseTail rest
    some (digitsVal d1, digitsVal d2, cnt)
  | _ => none

/-- One line of the multiline scan.  `prevAllWs` records whether the previous
line is whitespace-only, in which case `^\s+` can anchor there and reach a
line that starts at `Phase` directly. -/
def phaseLineMatch (prevAllWs : Bool) (line : List Char) : Option (ℕ × ℕ × ℕ) :=
  let ws := line.takeWhile isPySpace
  if ws ≠ [] then phaseCore (line.drop ws.length)
  else if prevAllWs then phaseCore line
  else none

/-- Scan the lines in order; the first line has no preceding newline for
`^\s+` to start from. -/
def scanPhaseLines : List (List Char) → Bool → List (ℕ × ℕ × ℕ)
  | [], _ => []
  | l :: ls, prevAllWs =>
    (phaseLineMatch prevAllWs l).toList ++ scanPhaseLines ls (l.all isPySpace)

/-- Split a character list at newline characters (Python line structure of
the multiline scan). -/
def splitLines (cs : List Char) : List (List Char) :=
  match cs.foldr
      (fun c (acc : List Char × List (List Char)) =>
        if c = '\n' then ([], acc.1 :: acc.2) else (c :: acc.1, acc.2)) ([], []) with
  | (first, rest) => first :: rest

/-- All `(outcome, denominator, count)` matches of the histogram pattern. -/
def phaseMatches (text : List Char) : List (ℕ × ℕ × ℕ) :=
  scanPhaseLines (splitLines text) false

/-- Python dict assignment `d[k] = v`: replace in place when the key exists,
else append. -/
def dictInsert (d : List (ℕ × ℕ)) (k v : ℕ) : List (ℕ × ℕ) :=
  if d.any (fun p => p.1 = k) then d.map (fun p => if p.1 = k then (k, v) else p)
  else d ++ [(k, v)]

/-- `histogram_counts` as built by the loop over the matches. -/
def histogramCounts (text : List Char) : List (ℕ × ℕ) :=
  (phaseMatches text).foldl (fun d m => dictInsert d m.1 m.2.2) []

/-- `histogram_denominator`: overwritten on every match, so the last match's
denominator survives. -/
def histogramDenominator (text : List Char) : Option ℕ :=
  (phaseMatches text).foldl (fun _ m => some m.2.1) none

/-! ### Amplitude-estimate extraction

`analyze.py` lines 195-211: `number_pattern = r"([0-9eE+\-\.,]+)"`,
`plus_minus_pattern` matching `±` (optionally preceded by a stray `Â`) or
plus-slash-minus, and the two ordered amplitude patterns
`"Quantum amplitude estimation.*: NUM PM NUM"` then
`"Mean amplitude estimate:\s*NUM\s*PM\s*NUM"`, each tried with `re.search`. -/

/-- The `[0-9eE+\-\.,]` character class of `number_pattern`. -/
def isNumClass (c : Char) : Bool :=
  isPyDigit c || c = 'e' || c = 'E' || c = '+' || c = '-' || c = '.' || c = ','

/-- `plus_minus_pattern`: `Â?±` or plus-slash-minus. -/
def matchPlusMinus : List Char → Option (List Char)
  | 'Â' :: '±' :: rest => some rest
  | '±' :: rest => some rest
  | '+' :: '/' :: '-' :: rest => some rest
  | _ => none

/-- Backtracking for `NUM\s*PM`: `pre` is the reversed candidate first group
(initially the maximal `[0-9eE+\-\.,]+` run); shrink it from the right until
`\s*` then the plus/minus separator matches. -/
def numPmSplit : List Char → List Char → Option (List Char × List Char)
  | [], _ => none
  | c :: pre, suf =>
    match matchPlusMinus (suf.dropWhile isPySpace) with
    | some rest => some ((c :: pre).reverse, rest)
    | none => numPmSplit pre (c :: suf)

/-- `Mean amplitude estimate:\s*NUM\s*PM\s*NUM` anchored at the current
position; yields the two number groups. -/
def meanAmpAt (cs : List Char) : Option (List Char × List Char) := do
  let rest ← expectLit "Mean amplitude estimate:".data cs
  let rest := rest.dropWhile isPySpace
  let run := rest.takeWhile isNumClass
  let after := rest.drop run.length
  let (g1, rest2) ← numPmSplit run.reverse after
  let rest2 := rest2.dropWhile isPySpace
  let g2 := rest2.takeWhile isNumClass
  if g2 = [] then none else some (g1, g2)

/-- Tail `: NUM PM NUM` (single literal spaces) of the canonical quantum
pattern, anchored at the current position. -/
def quantTailAt (cs : List Char) : Option (List Char × List Char) :=
  match cs with
  | ':' :: ' ' :: rest =>
    let g1 := rest.takeWhile isNumClass
    if g1 = [] then none else
    match rest.drop g1.length with
    | ' ' :: rest2 =>
      match matchPlusMinus rest2 with
      | some rest3 =>
        match rest3 with
        | ' ' :: rest4 =>
          let g2 := rest4.takeWhile isNumClass
          if g2 = [] then none else some (g1, g2)
        | _ => none
      | none => none
    | _ => none
  | _ => none

/-- Greedy `.*` (which does not cross a newline) before `quantTailAt`:
rightmost successful tail start wins. -/
def quantRest : List Char → Option (List Char × List Char)
  | [] => none
  | c :: cs =>
    if c = '\n' then none
    else
      match quantRest cs with
      | some g => some g
      | none => quantTailAt (c :: cs)

/-- `Quantum amplitude estimation.*: NUM PM NUM` anchored at the current
position. -/
def quantAmpAt (cs : List Char) : Option (List Char × List Char) := do
  let rest ← expectLit "Quantum amplitude estimation".data cs
  quantRest rest

/-- `re.search`: try the anchored matcher at every position, leftmost match
wins. -/
def searchL (m : List Char → Option α) : List Char → Option α
  | [] => m []
  | c :: cs =>
    match m (c :: cs) with
    | some g => some g
    | none => searchL m cs

/-- `quantum_match`: the canonical pattern first, the
"Mean amplitude estimate" fallback second (analyze.py lines 203-205). -/
def quantumMatch (text : List Char) : Option (List Char × List Char) :=
  match searchL quantAmpAt text with
  | some g => some g
  | none => searchL meanAmpAt text

/-- `quantum_estimate` and `quantum_std` from the match groups
(analyze.py lines 228-229). -/
def quantumEstimateStd (text : List Char) : Option ℚ × Option ℚ :=
  match quantumMatch text with
  | some (g1, g2) => (toFloat (some g1), toFloat (some g2))
  | none => (toFloat none, toFloat none)

/-! ### Timestamps

`update_calibration_history.py` parses ISO-8601 timestamps with
`datetime.fromisoformat(value.replace("Z", "+00:00"))` and compares the
results with `max`.  A parsed datetime is modelled by its wall-clock
microsecond ordinal since 0001-01-01T00:00:00 plus an optional UTC offset;
`datetime.min` is the naive ordinal 0.  Python orders naive with naive and
aware with aware (by instant, subtracting the offset) and raises `TypeError`
on a mixed comparison. -/

/-- A Python `datetime`: wall-clock microseconds since 0001-01-01T00:00:00,
and the UTC offset in microseconds when timezone-aware. -/
structure PyDateTime where
  ts : ℕ
  off : Option ℤ
deriving DecidableEq

/-- `datetime.min`: 0001-01-01T00:00:00, timezone-naive. -/
def datetimeMin : PyDateTime := ⟨0, none⟩

/-- Proleptic-Gregorian leap year. -/
def isLeap (y : ℕ) : Bool :=
  y % 4 = 0 && (y % 100 ≠ 0 || y % 400 = 0)

/-- Days in the given month of the given year. -/
def daysInMonth (y m : ℕ) : ℕ :=
  if m = 2 then if isLeap y then 29 else 28
  else if m = 4 ∨ m = 6 ∨ m = 9 ∨ m = 11 then 30
  else 31

/-- Days in the years before year `y` (proleptic Gregorian, year 1 first). -/
def daysBeforeYear (y : ℕ) : ℕ :=
  365 * (y - 1) + (y - 1) / 4 - (y - 1) / 100 + (y - 1) / 400

/-- Days in the months of year `y` before month `m`. -/
def daysBeforeMonth (y m : ℕ) : ℕ :=
  (List.range (m - 1)).foldl (fun acc i => acc + daysInMonth y (i + 1)) 0

/-- Wall-clock microsecond ordinal of a date-time since 0001-01-01T00:00:00. -/
def toOrdinal (y mo d h mi s us : ℕ) : ℕ :=
  ((((daysBeforeYear y + daysBeforeMonth y mo + (d - 1)) * 24 + h) * 60 + mi) * 60 + s)
      * 1000000 + us

/-- Read exactly `n` decimal digits, accumulating their value. -/
def readDigits : ℕ → ℕ → List Char → Option (ℕ × List Char)
  | 0, acc, cs => some (acc, cs)
  | n + 1, acc, c :: cs =>
    if isPyDigit c then readDigits n (acc * 10 + digitVal c) cs else none
  | _ + 1, _, [] => none

/-- Optional fractional seconds: a dot and one to six digits, scaled to
microseconds. -/
def readFraction (cs : List Char) : Option (ℕ × List Char) :=
  match cs with
  | '.' :: rest =>
    let ds := rest.takeWhile isPyDigit
    if ds = [] ∨ 6 < ds.length then none
    else some (digitsVal ds * 10 ^ (6 - ds.length), rest.drop ds.length)
  | _ => some (0, cs)

/-- Optional UTC offset `±HH:MM` in microseconds; absent means naive. -/
def readOffset (cs : List Char) : Option (Option ℤ × List Char) :=
  match cs with
  | [] => some (none, [])
  | c :: rest =>
    if c = '+' ∨ c = '-' then do
      let (oh, rest) ← readDigits 2 0 rest
      match rest with
      | ':' :: rest => do
        let (om, rest) ← readDigits 2 0 rest
        if oh ≤ 23 ∧ om ≤ 59 then
          let sgn : ℤ := if c = '+' then 1 else -1
          some (some (sgn * ((oh * 60 + om) * 60 * 1000000 : ℕ)), rest)
        else none
      | _ => none
    else none

/-- Time-of-day `HH:MM[:SS[.ffffff]]` then the optional offset. -/
def readTime (cs : List Char) : Option (ℕ × ℕ × ℕ × ℕ × Option ℤ × List Char) := do
  let (h, cs) ← readDigits 2 0 cs
  match cs with
  | ':' :: cs => do
    let (mi, cs) ← readDigits 2 0 cs
    let (s, us, cs) ←
      match cs with
      | ':' :: cs' => do
        let (s, cs') ← readDigits 2 0 cs'
        let (us, cs') ← readFraction cs'
        pure (s, us, cs')
      | _ => pure (0, 0, cs)
    let (off, cs) ← readOffset cs
    if h ≤ 23 ∧ mi ≤ 59 ∧ s ≤ 59 then some (h, mi, s, us, off, cs) else none
  | _ => none

/-- Model of `datetime.fromisoformat` on the common ISO-8601 forms this
pipeline emits: `YYYY-MM-DD`, optionally a separator character and
`HH:MM[:SS[.ffffff]]`, optionally a `±HH:MM` offset.  Date and time fields
are range-validated as the library validates them. -/
def pyFromISO (cs : List Char) : Option PyDateTime := do
  let (y, cs) ← readDigits 4 0 cs
  match cs with
  | '-' :: cs =>
    let (mo, cs) ← readDigits 2 0 cs
    match cs with
    | '-' :: cs => do
      let (d, cs) ← readDigits 2 0 cs
      if 1 ≤ y ∧ 1 ≤ mo ∧ mo ≤ 12 ∧ 1 ≤ d ∧ d ≤ daysInMonth y mo then
        match cs with
        | [] => some ⟨toOrdinal y mo d 0 0 0 0, none⟩
        | _ :: cs => do
          let (h, mi, s, us, off, cs) ← readTime cs
          if cs = [] then some ⟨toOrdinal y mo d h mi s us, off⟩ else none
      else none
    | _ => none
  | _ => none

/-- `value.replace("Z", "+00:00")` (every occurrence). -/
def replaceZ (cs : List Char) : List Char :=
  cs.foldr (fun c acc => if c = 'Z' then '+' :: '0' :: '0' :: ':' :: '0' :: '0' :: acc
    else c :: acc) []

/-- `_parse_timestamp` (update_calibration_history.py lines 22-28): a
non-string or empty value, or an unparsable string, yields `datetime.min`. -/
def parseTimestampJ : JVal → PyDateTime
  | .str s => if s = "" then datetimeMin else (pyFromISO (replaceZ s.data)).getD datetimeMin
  | _ => datetimeMin

/-- The exceptions the modelled code can raise. -/
inductive PyErr
  | typeError
  | valueError
  | fileNotFound
deriving DecidableEq

deriving instance DecidableEq for Except

/-- Python's `a > b` on datetimes: naive with naive by wall clock, aware with
aware by instant, mixed raises `TypeError`. -/
def pyGT : PyDateTime → PyDateTime → Except PyErr Bool
  | ⟨t1, none⟩, ⟨t2, none⟩ => .ok (t2 < t1)
  | ⟨t1, some o1⟩, ⟨t2, some o2⟩ => .ok ((t2 : ℤ) - o2 < (t1 : ℤ) - o1)
  | _, _ => .error .typeError

/-! ### Calibration-history store (`update_calibration_history.py`) -/

/-- Truncation toward zero, Python `int(float)`. -/
def ratTrunc (q : ℚ) : ℤ :=
  if 0 ≤ q then ⌊q⌋ else ⌈q⌉

/-- Python `int(str)` on a stripped optionally-signed decimal string. -/
def pyIntOfStr (cs : List Char) : Option ℤ :=
  let cs := strTrim cs
  let (sgn, cs) : ℤ × List Char :=
    match cs with
    | '+' :: rest => (1, rest)
    | '-' :: rest => (-1, rest)
    | _ => (1, cs)
  if cs ≠ [] ∧ cs.all isPyDigit then some (sgn * digitsVal cs) else none

/-- Python `int(value)` on a JSON value: `None` raises `TypeError`, a
malformed string raises `ValueError`, a float truncates toward zero. -/
def pyInt : JVal → Except PyErr ℤ
  | .null => .error .typeError
  | .bool b => .ok (if b then 1 else 0)
  | .num q => .ok (ratTrunc q)
  | .str s =>
    match pyIntOfStr s.data with
    | some n => .ok n
    | none => .error .valueError

/-- `_as_float` (lines 13-19): numeric values (booleans included, as `int`
subclasses) convert directly, strings go through `float()`, anything else is
`None`. -/
def asFloat : JVal → Option ℚ
  | .null => none
  | .bool b => some (if b then 1 else 0)
  | .num q => some q
  | .str s => pyFloat s.data

/-- One run object inside `payload["ensemble"]["runs"]`; only its `metrics`
dict is read. -/
structure EnsembleRun where
  metrics : JDict
deriving DecidableEq

/-- The slice of a result-artifact JSON payload the loaders read:
`payload["timestamp"]`, `payload.get("metrics", {})`,
`payload.get("instance", {}).get("parameters", {})` and
`payload.get("ensemble", {}).get("runs", [])`. -/
structure Payload where
  timestamp : JVal
  metrics : JDict
  instanceParams : JDict
  ensembleRuns : List EnsembleRun
deriving DecidableEq

/-- The normalized candidate dict both loaders return. -/
structure CalRecord where
  source : String
  timestamp : JVal
  phaseBits : JVal
  repetitions : JVal
  runs : ℤ
  quantumEstimate : Option ℚ
  stdError : Option ℚ
  theoretical : Option ℚ
  meanDifference : Option ℚ
deriving DecidableEq

/-- `_load_ensemble_record` (lines 31-53). -/
def loadEnsembleRecord (p : Payload) : Except PyErr CalRecord := do
  let runs ← pyInt (pyOr (pyOr (jget p.metrics "ensemble_runs")
    (jget p.metrics "runs_requested")) (.num 0))
  let theoretical :=
    match asFloat (jget p.metrics "analytic_probability") with
    | some t => some t
    | none =>
      match p.ensembleRuns with
      | [] => none
      | r :: _ => asFloat (jget r.metrics "analytic_probability")
  .ok {
    source := "ensemble"
    timestamp := p.timestamp
    phaseBits := pyOr (jget p.instanceParams "phase_bits") (jget p.metrics "phase_bits")
    repetitions := pyOr (jget p.instanceParams "repetitions") (jget p.metrics "repetitions")
    runs := runs
    quantumEstimate := asFloat (jget p.metrics "quantum_estimate")
    stdError := asFloat (pyOr (jget p.metrics "ensemble_std_error")
      (jget p.metrics "mean_reported_std_error"))
    theoretical := theoretical
    meanDifference := asFloat (jget p.metrics "mean_difference") }

/-- `_load_single_record` (lines 56-75). -/
def loadSingleRecord (p : Payload) : CalRecord :=
  let theoretical := asFloat (jget p.metrics "analytic_probability")
  let estimate := asFloat (jget p.metrics "quantum_estimate")
  let diff :=
    match theoretical, estimate with
    | some t, some e => some (e - t)
    | _, _ => none
  { source := "single"
    timestamp := p.timestamp
    phaseBits := pyOr (jget p.instanceParams "phase_bits") (jget p.metrics "phase_bits")
    repetitions := pyOr (jget p.instanceParams "repetitions") (jget p.metrics "repetitions")
    runs := 1
    quantumEstimate := estimate
    stdError := asFloat (jget p.metrics "quantum_std_error")
    theoretical := theoretical
    meanDifference := diff }

/-- `max(candidates, key=...)`: fold keeping the current maximum, replacing
it only on a strictly greater key, as CPython's `max` compares. -/
def pyMaxByTimestamp : CalRecord → List CalRecord → Except PyErr CalRecord
  | cur, [] => .ok cur
  | cur, x :: xs => do
    let b ← pyGT (parseTimestampJ x.timestamp) (parseTimestampJ cur.timestamp)
    pyMaxByTimestamp (if b then x else cur) xs

/-- `load_latest` (lines 78-91).  The two `Option Payload` arguments model the
existence and contents of `quantum_estimate_ensemble.json` and
`quantum_estimate.json`; the ensemble candidate is appended first, exactly as
in the source.  An empty candidate list raises `FileNotFoundError`. -/
def loadLatest (ensemble single : Option Payload) : Except PyErr CalRecord := do
  let ensCands ←
    match ensemble with
    | some p => do
      let r ← loadEnsembleRecord p
      pure [r]
    | none => pure []
  let cands := ensCands ++ (match single with
    | some p => [loadSingleRecord p]
    | none => [])
  match cands with
  | [] => .error .fileNotFound
  | c :: rest => pyMaxByTimestamp c rest

/-- The on-disk history document: a `records` array that may be missing
(`setdefault` supplies it) and the `last_updated_utc` stamp. -/
structure HistoryDoc (α : Type) where
  records : Option (List α)
  lastUpdatedUtc : Option String
deriving DecidableEq

/-- `append_history` (lines 94-106): read the file or start `{"records": []}`,
default the `records` key, append the record, stamp `last_updated_utc` with
the current time (passed explicitly), write back, return the new length. -/
def appendHistory {α : Type} (file : Option (HistoryDoc α)) (record : α) (now : String) :
    HistoryDoc α × ℕ :=
  let history := file.getD ⟨some [], none⟩
  let records := history.records.getD []
  let records := records ++ [record]
  (⟨some records, some now⟩, records.length)

/-- `relative_error_percent` as `main` computes it (lines 126-130): only when
the estimate and the theoretical value are floats and the theoretical value
is non-zero. -/
def relErrorPct (latest : CalRecord) : Option ℚ :=
  match latest.quantumEstimate, latest.theoretical with
  | some e, some t => if t ≠ 0 then some (|e - t| / |t| * 100) else none
  | _, _ => none

/-- The appended record `{"recorded_utc": ..., **latest,
"relative_error_percent": ...}`. -/
structure CalEntry where
  recordedUtc : String
  record : CalRecord
  relativeErrorPercent : Option ℚ
deriving DecidableEq

/-- The history-affecting core of `main` (lines 119-141): select the latest
candidate, build the calibration entry, append it.  An exception from
`load_latest` propagates and the history is untouched. -/
def mainStep (ensemble single : Option Payload) (history : Option (HistoryDoc CalEntry))
    (recordedNow lastUpdatedNow : String) : Except PyErr (HistoryDoc CalEntry × ℕ) := do
  let latest ← loadLatest ensemble single
  .ok (appendHistory history
    ⟨recordedNow, latest, relErrorPct latest⟩ lastUpdatedNow)

/-! ### Resource-cost proxy (`analyze.py` lines 281-283) -/

/-- `t_count = max(1, phase_bits * repeats * 4)` when both are known, else
unavailable. -/
def tCount (phaseBits repeats : Option ℕ) : Option ℕ :=
  match phaseBits, repeats with
  | some pb, some r => some (max 1 (pb * r * 4))
  | _, _ => none

/-! ### Circular-mean statistics (`analyze.py` lines 250-270)

The Python code runs on IEEE floats; here the same arithmetic is idealised
over `ℝ`/`ℂ` (the standard shallow embedding of the float formulas), with
`math.atan2(y, x)` modelled by the argument of the complex number `x + y·i`,
which agrees with `atan2` everywhere on the reals. -/

/-- `total_counts = sum(histogram_counts.values())`. -/
def totalCounts (hist : List (ℕ × ℕ)) : ℕ :=
  (hist.map (fun kc => kc.2)).sum

/-- `math.atan2 (y, x)`: the argument of `x + y·i`, in `(-π, π]`. -/
noncomputable def atan2 (y x : ℝ) : ℝ :=
  Complex.arg ⟨x, y⟩

/-- `folded_outcome = min(outcome, denom - outcome)` (a Python `int`
subtraction, so an out-of-range outcome folds to a negative value), then
`angle = 2π·folded/denom`. -/
noncomputable def foldedAngle (denom k : ℕ) : ℝ :=
  2 * Real.pi * ((min (k : ℤ) ((denom : ℤ) - (k : ℤ))) : ℝ) / (denom : ℝ)

/-- The loop accumulating `count * complex(cos angle, sin angle)` over the
histogram (`complex(a, b)` is `a + b·i`). -/
noncomputable def complexSum (denom : ℕ) (hist : List (ℕ × ℕ)) : ℂ :=
  hist.foldl (fun acc kc =>
    acc + (kc.2 : ℂ) *
      ((Real.cos (foldedAngle denom kc.1) : ℂ) +
        (Real.sin (foldedAngle denom kc.1) : ℂ) * Complex.I)) 0

/-- `complex_mean = complex_sum / total_counts`, over denominator
`1 << phase_bits`. -/
noncomputable def circularMean (hist : List (ℕ × ℕ)) (pb : ℕ) : ℂ :=
  complexSum (2 ^ pb) hist / (totalCounts hist : ℂ)

/-- The wrap `if raw_phase < 0.0: raw_phase += 2π` to `[0, 2π)`. -/
noncomputable def wrapPhase (x : ℝ) : ℝ :=
  if x < 0 then x + 2 * Real.pi else x

/-- The circular amplitude/phase pair (`circular_amplitude`,
`circular_phase`), `none` when either stays `None` in the source: no
histogram, no phase-bit count, zero total count, or a normalized complex sum
of magnitude not exceeding `1e-12`. -/
noncomputable def circularStats (hist : List (ℕ × ℕ)) (phaseBits : Option ℕ) :
    Option (ℝ × ℝ) :=
  match phaseBits with
  | none => none
  | some pb =>
    if hist = [] then none
    else
      if 0 < totalCounts hist then
        let cmean : ℂ := circularMean hist pb
        if 1e-12 < Complex.abs cmean then
          let rawPhase := wrapPhase (atan2 cmean.im cmean.re)
          let normalizedPhase := rawPhase / (2 * Real.pi)
          let foldedPhase := min normalizedPhase (1 - normalizedPhase)
          let theta := Real.pi * foldedPhase
          some (Real.sin theta ^ 2, foldedPhase)
        else none
      else none

/-! ### Ensemble aggregation (`analyze.py` lines 366-393)

`_compose_ensemble_payload` first keeps the dict-valued `metrics` blocks of
the runs; the model takes that list of metrics dicts directly. -/

/-- `isinstance(value, (int, float))` plus the `float()` conversion of
`_collect_float`; Python booleans are `int` subclasses. -/
def jnumVal : JVal → Option ℚ
  | .num q => some q
  | .bool b => some (if b then 1 else 0)
  | _ => none

/-- `_collect_float(key)`: the numeric values of `key` across the runs'
metrics, in run order, absent or non-numeric values skipped. -/
def collectFloat (metricsList : List JDict) (key : String) : List ℚ :=
  metricsList.filterMap (fun m => jnumVal (jget m key))

/-- `statistics.mean` over the reals. -/
noncomputable def listMean (xs : List ℚ) : ℝ :=
  (xs.map (fun x => (x : ℝ))).sum / (xs.length : ℝ)

/-- `statistics.pstdev`: square root of the population variance
`Σ (x - mean)² / n`. -/
noncomputable def listPstdev (xs : List ℚ) : ℝ :=
  Real.sqrt ((xs.map (fun x => ((x : ℝ) - listMean xs) ^ 2)).sum / (xs.length : ℝ))

/-- The amplitude aggregates of `_compose_ensemble_payload` (lines 378-388):
`(quantum_estimate, ensemble_std_deviation, ensemble_std_error)`. -/
noncomputable def ensembleAmplitudeStats (metricsList : List JDict) :
    Option ℝ × Option ℝ × Option ℝ :=
  let amplitudeValues := collectFloat metricsList "quantum_estimate"
  let amplitudeMean := if amplitudeValues = [] then none else some (listMean amplitudeValues)
  let amplitudeStd := if amplitudeValues = [] then none else some (listPstdev amplitudeValues)
  let amplitudeStdError :=
    match amplitudeStd with
    | some s =>
      if amplitudeValues ≠ [] then
        if 0 < amplitudeValues.length then some (s / Real.sqrt (amplitudeValues.length : ℝ))
        else none
      else none
    | none => none
  (amplitudeMean, amplitudeStd, amplitudeStdError)

/-! ### Concrete inputs used by the theorems below -/

/-- An ensemble artifact whose `timestamp` key is missing/null. -/
def epNoTimestamp : Payload := ⟨.null, [], [], []⟩

/-- A single-run artifact with the usual `Z`-suffixed timestamp. -/
def spAware : Payload := ⟨.str "2026-02-22T10:05:00Z", [], [], []⟩

/-- An ensemble artifact as `analyze.py` writes one (timestamped 10:00). -/
def epW : Payload :=
  ⟨.str "2026-02-22T10:00:00Z",
   [("ensemble_runs", .num 3), ("quantum_estimate", .num (1/5)),
    ("ensemble_std_error", .num 2), ("mean_difference", .num (1/100))],
   [("phase_bits", .num 6), ("repetitions", .num 120)],
   [⟨[("analytic_probability", .num (19/100))]⟩]⟩

/-- A single-run artifact timestamped five minutes later. -/
def spW : Payload :=
  ⟨.str "2026-02-22T10:05:00Z",
   [("quantum_estimate", .num (21/100)), ("quantum_std_error", .num (31/1000)),
    ("analytic_probability", .num (19/100)), ("phase_bits", .num 6),
    ("repetitions", .num 120)],
   [("phase_bits", .num 6), ("repetitions", .num 120)], []⟩

/-- The normalized candidate `_load_ensemble_record` builds from `epW`. -/
def ceW : CalRecord :=
  ⟨"ensemble", .str "2026-02-22T10:00:00Z", .num 6, .num 120, 3,
   some (1/5), some 2, some (19/100), some (1/100)⟩

/-- A histogram line whose outcome numerator exceeds its denominator. -/
def textBad : List Char := "  Phase 70/64 (t): 3 times".data

/-- The two histogram lines of the spec's worked example. -/
def textGood : List Char :=
  "  Phase 0/64 (a): 98 times\n  Phase 32/64 (b): 22 times".data

/-- The comma-decimal amplitude line of the spec's worked example. -/
def lineMean : List Char :=
  "Mean amplitude estimate: 0,18333333333333332 ± 0,035322587464470735".data

/-- The spec's worked histogram `{0: 98, 32: 22}` at six phase bits. -/
def histW : List (ℕ × ℕ) := [(0, 98), (32, 22)]

/-- A histogram whose count-normalized circular sum has magnitude exactly
`1e-12`: counts `10¹²+1` at angle `0` and `10¹²-1` at angle `π`. -/
def histBoundary : List (ℕ × ℕ) := [(0, 10 ^ 12 + 1), (2, 10 ^ 12 - 1)]

/-- Three run-metrics blocks with amplitude estimates 0.10, 0.12, 0.11. -/
def msW : List JDict :=
  [[("quantum_estimate", .num (1/10))],
   [("quantum_estimate", .num (3/25))],
   [("quantum_estimate", .num (11/100))]]

/-- An artifact whose instance parameters hold `phase_bits: 0` and
`repetitions: null` while the metrics block has real values. -/
def p10 : Payload :=
  ⟨.null, [("phase_bits", .num 6), ("repetitions", .num 120)],
   [("phase_bits", .num 0), ("repetitions", .null)], []⟩

/-- A candidate with estimate 3 and theoretical value 2. -/
def rec7 : CalRecord := ⟨"single", .null, .null, .null, 1, some 3, none, some 2, none⟩

/-- An ensemble artifact whose metrics carry no theoretical value; its first
nested run does. -/
def p7 : Payload :=
  ⟨.null, [], [], [⟨[("analytic_probability", .num (19/100))]⟩]⟩

/-- The candidate `_load_ensemble_record` builds from `p7`. -/
def ce7 : CalRecord :=
  ⟨"ensemble", .null, .null, .null, 0, none, none, some (19/100), none⟩

/-- The candidate `_load_ensemble_record` builds from `epNoTimestamp`. -/
def ceX : CalRecord := ⟨"ensemble", .null, .null, .null, 0, none, none, none, none⟩

/- ============================  THEOREMS  ============================ -/

/-- C9: the resource-cost proxy equals `max(1, phase_bits × repetitions × 4)`
whenever both phase-bit count and repetition count are known — hence it is
always at least 1 — and is unavailable otherwise; for `phase_bits = 6`,
`repetitions = 120` it equals 2880. -/
theorem C9_resource_cost_proxy :
    (∀ pb r : ℕ, tCount (some pb) (some r) = some (max 1 (pb * r * 4))) ∧
    (∀ (pbo ro : Option ℕ) (t : ℕ), tCount pbo ro = some t → 1 ≤ t) ∧
    (∀ ro : Option ℕ, tCount none ro = none) ∧
    (∀ pbo : Option ℕ, tCount pbo none = none) ∧
    tCount (some 6) (some 120) = some 2880 := by
  refine ⟨fun pb r => rfl, ?_, ?_, ?_, by decide⟩
  · intro pbo ro t h
    cases pbo with
    | none => simp [tCount] at h
    | some pb =>
      cases ro with
      | none => simp [tCount] at h
      | some r =>
        simp only [tCount, Option.some.injEq] at h
        exact h ▸ le_max_left 1 (pb * r * 4)
  · intro ro; cases ro <;> rfl
  · intro pbo; cases pbo <;> rfl

/-- C9 witness: the theorem applied at `phase_bits = 6`,
`repetitions = 120`. -/
theorem C9_resource_cost_proxy_witness :
    tCount (some 6) (some 120) = some 2880 ∧ 1 ≤ 2880 :=
  ⟨C9_resource_cost_proxy.2.2.2.2,
   C9_resource_cost_proxy.2.1 (some 6) (some 120) 2880 C9_resource_cost_proxy.2.2.2.2⟩

/-- C5: `append_history` appends exactly one entry at the end of the existing
records (starting from an empty list when no file exists), leaves every
existing entry in place, stamps `last_updated_utc`, and returns the new total
count; appending A then B from no file yields `[A, B]` with counts 1 and 2
and the last-updated stamp of the B append. -/
theorem C5_append_history :
    (∀ (α : Type) (file : Option (HistoryDoc α)) (record : α) (now : String),
      (appendHistory file record now).1.records =
        some ((file.getD ⟨some [], none⟩).records.getD [] ++ [record]) ∧
      (appendHistory file record now).1.lastUpdatedUtc = some now ∧
      (appendHistory file record now).2 =
        ((file.getD ⟨some [], none⟩).records.getD []).length + 1) ∧
    (∀ (α : Type) (A B : α) (t1 t2 : String),
      (appendHistory (none : Option (HistoryDoc α)) A t1).2 = 1 ∧
      (appendHistory (some (appendHistory (none : Option (HistoryDoc α)) A t1).1) B t2).2 = 2 ∧
      (appendHistory (some (appendHistory (none : Option (HistoryDoc α)) A t1).1) B t2).1.records =
        some [A, B] ∧
      (appendHistory (some (appendHistory (none : Option (HistoryDoc α)) A t1).1) B t2).1.lastUpdatedUtc =
        some t2) := by
  constructor
  · intro α file record now
    refine ⟨rfl, rfl, ?_⟩
    simp [appendHistory]
  · intro α A B t1 t2
    exact ⟨rfl, rfl, rfl, rfl⟩

/-- C10: in both calibration loaders a `phase_bits` or `repetitions` instance
parameter that is null/absent or numerically 0 is falsy under Python `or` and
is replaced by the metrics-block value; a non-zero, non-null numeric instance
value takes precedence; the ensemble loader computes the very same fields. -/
theorem C10_zero_parameter_fallback :
    ∀ p : Payload,
      ((jget p.instanceParams "phase_bits" = .null ∨
          jget p.instanceParams "phase_bits" = .num 0) →
        (loadSingleRecord p).phaseBits = jget p.metrics "phase_bits") ∧
      ((jget p.instanceParams "repetitions" = .null ∨
          jget p.instanceParams "repetitions" = .num 0) →
        (loadSingleRecord p).repetitions = jget p.metrics "repetitions") ∧
      (∀ q : ℚ, q ≠ 0 → jget p.instanceParams "phase_bits" = .num q →
        (loadSingleRecord p).phaseBits = .num q) ∧
      (∀ q : ℚ, q ≠ 0 → jget p.instanceParams "repetitions" = .num q →
        (loadSingleRecord p).repetitions = .num q) ∧
      (∀ rec : CalRecord, loadEnsembleRecord p = .ok rec →
        rec.phaseBits = (loadSingleRecord p).phaseBits ∧
        rec.repetitions = (loadSingleRecord p).repetitions) := by
  intro p
  refine ⟨?_, ?_, ?_, ?_, ?_⟩
  · rintro (h | h) <;> simp [loadSingleRecord, pyOr, truthy, h]
  · rintro (h | h) <;> simp [loadSingleRecord, pyOr, truthy, h]
  · intro q hq h; simp [loadSingleRecord, pyOr, truthy, h, hq]
  · intro q hq h; simp [loadSingleRecord, pyOr, truthy, h, hq]
  · intro rec h
    cases hpy : pyInt (pyOr (pyOr (jget p.metrics "ensemble_runs")
        (jget p.metrics "runs_requested")) (.num 0)) with
    | error e => simp [loadEnsembleRecord, hpy, bind, Except.bind] at h
    | ok runs =>
      simp only [loadEnsembleRecord, hpy, Except.bind, bind] at h
      cases h
      exact ⟨rfl, rfl⟩

/-- C10 witness: the theorem applied to an artifact whose instance parameters
hold `phase_bits: 0` and `repetitions: null`. -/
theorem C10_zero_parameter_fallback_witness :
    (loadSingleRecord p10).phaseBits = jget p10.metrics "phase_bits" ∧
    (loadSingleRecord p10).repetitions = jget p10.metrics "repetitions" :=
  ⟨(C10_zero_parameter_fallback p10).1 (Or.inr rfl),
   (C10_zero_parameter_fallback p10).2.1 (Or.inl rfl)⟩

/-- C7: the relative error is `|estimate − theoretical| / |theoretical| × 100`,
computed exactly when both values are known and the theoretical value is
non-zero, and left unavailable otherwise; an ensemble record without its own
theoretical value falls back to the first nested run's analytic
probability. -/
theorem C7_relative_error :
    (∀ (r : CalRecord) (e t : ℚ), r.quantumEstimate = some e → r.theoretical = some t →
      t ≠ 0 → relErrorPct r = some (|e - t| / |t| * 100)) ∧
    (∀ r : CalRecord,
      r.quantumEstimate = none ∨ r.theoretical = none ∨ r.theoretical = some 0 →
      relErrorPct r = none) ∧
    (∀ (p : Payload) (r0 : EnsembleRun) (rs : List EnsembleRun) (rec : CalRecord),
      asFloat (jget p.metrics "analytic_probability") = none →
      p.ensembleRuns = r0 :: rs →
      loadEnsembleRecord p = .ok rec →
      rec.theoretical = asFloat (jget r0.metrics "analytic_probability")) := by
  refine ⟨?_, ?_, ?_⟩
  · intro r e t he ht hne
    simp [relErrorPct, he, ht, hne]
  · intro r h
    rcases h with h | h | h
    · cases ht : r.theoretical <;> simp [relErrorPct, h, ht]
    · cases he : r.quantumEstimate <;> simp [relErrorPct, h, he]
    · cases he : r.quantumEstimate <;> simp [relErrorPct, h, he]
  · intro p r0 rs rec hfl hruns h
    cases hpy : pyInt (pyOr (pyOr (jget p.metrics "ensemble_runs")
        (jget p.metrics "runs_requested")) (.num 0)) with
    | error e => simp [loadEnsembleRecord, hpy, bind, Except.bind] at h
    | ok runs =>
      simp only [loadEnsembleRecord, hpy, hfl, hruns, Except.bind, bind] at h
      cases h
      rfl

/-- C7 witness: the theorem applied to a candidate with estimate 3 and
theoretical 2, and to the ensemble artifact `p7` whose own metrics carry no
theoretical value. -/
theorem C7_relative_error_witness :
    relErrorPct rec7 = some (|(3 : ℚ) - 2| / |(2 : ℚ)| * 100) ∧
    ce7.theoretical =
      asFloat (jget (EnsembleRun.mk [("analytic_probability", JVal.num (19/100))]).metrics
        "analytic_probability") :=
  ⟨C7_relative_error.1 rec7 3 2 rfl rfl (by norm_num),
   C7_relative_error.2.2 p7 ⟨[("analytic_probability", JVal.num (19/100))]⟩ [] ce7
     rfl rfl (by rfl)⟩

/-- `int()` raises `TypeError` or `ValueError`, never `FileNotFoundError`. -/
theorem pyInt_not_fnf : ∀ v : JVal, pyInt v ≠ .error .fileNotFound := by
  intro v
  cases v with
  | null => simp [pyInt]
  | bool b => simp [pyInt]
  | num q => simp [pyInt]
  | str s => cases h : pyIntOfStr s.data <;> simp [pyInt, h]

/-- A datetime comparison raises only `TypeError`. -/
theorem pyGT_not_fnf : ∀ a b : PyDateTime, pyGT a b ≠ .error .fileNotFound := by
  intro a b
  rcases a with ⟨t1, _ | o1⟩ <;> rcases b with ⟨t2, _ | o2⟩ <;> simp [pyGT]

/-- The `max` fold over candidates raises only what the comparisons raise. -/
theorem pyMax_not_fnf : ∀ (xs : List CalRecord) (c : CalRecord),
    pyMaxByTimestamp c xs ≠ .error .fileNotFound := by
  intro xs
  induction xs with
  | nil => intro c; simp [pyMaxByTimestamp]
  | cons x xs ih =>
    intro c
    simp only [pyMaxByTimestamp, bind, Except.bind]
    cases hg : pyGT (parseTimestampJ x.timestamp) (parseTimestampJ c.timestamp) with
    | error e =>
      have hne := pyGT_not_fnf (parseTimestampJ x.timestamp) (parseTimestampJ c.timestamp)
      rw [hg] at hne
      simpa using hne
    | ok b => exact ih _

/-- The ensemble loader raises only what `int()` raises. -/
theorem loadEnsemble_not_fnf : ∀ p : Payload,
    loadEnsembleRecord p ≠ .error .fileNotFound := by
  intro p
  cases hpy : pyInt (pyOr (pyOr (jget p.metrics "ensemble_runs")
      (jget p.metrics "runs_requested")) (.num 0)) with
  | error e =>
    have hne := pyInt_not_fnf (pyOr (pyOr (jget p.metrics "ensemble_runs")
      (jget p.metrics "runs_requested")) (.num 0))
    rw [hpy] at hne
    simp only [loadEnsembleRecord, hpy, bind, Except.bind]
    simpa using hne
  | ok n => simp [loadEnsembleRecord, hpy, bind, Except.bind]

/-- C8: with neither artifact present, building a calibration entry raises
the no-candidate failure to the caller and nothing is appended to the
history; with at least one artifact present, `load_latest` never raises that
failure. -/
theorem C8_no_candidate_failure :
    loadLatest none none = .error .fileNotFound ∧
    (∀ (h : Option (HistoryDoc CalEntry)) (rn ln : String),
      mainStep none none h rn ln = .error .fileNotFound) ∧
    (∀ ensemble single : Option Payload, ensemble.isSome ∨ single.isSome →
      loadLatest ensemble single ≠ .error .fileNotFound) := by
  refine ⟨rfl, fun h rn ln => rfl, ?_⟩
  intro ensemble single hor
  cases ensemble with
  | none =>
    cases single with
    | none => simp at hor
    | some sp =>
      rw [show loadLatest none (some sp) = .ok (loadSingleRecord sp) from rfl]
      simp
  | some ep =>
    cases hE : loadEnsembleRecord ep with
    | error e =>
      have hne := loadEnsemble_not_fnf ep
      rw [hE] at hne
      cases single <;>
        · simp only [loadLatest, hE, bind, Except.bind]
          simpa using hne
    | ok ce =>
      cases single with
      | none =>
        simp [loadLatest, hE, bind, Except.bind, pure, Except.pure, pyMaxByTimestamp]
      | some sp =>
        simp only [loadLatest, hE, bind, Except.bind, pure, Except.pure,
          List.cons_append, List.nil_append]
        exact pyMax_not_fnf _ _

/-- C8 witness: the theorem applied with only the ensemble artifact
present. -/
theorem C8_no_candidate_failure_witness :
    loadLatest (some epW) none ≠ .error .fileNotFound :=
  C8_no_candidate_failure.2.2 (some epW) none (Or.inl rfl)

/-- C6: numeric conversion handles locale variants — a value containing a
comma but no dot has the comma treated as a decimal point, a value containing
both has all commas stripped as thousands separators — and the line
"Mean amplitude estimate: 0,18333333333333332 ± 0,035322587464470735" parses
to exactly those decimal values. -/
theorem C6_locale_numeric_conversion :
    (∀ s : List Char, ',' ∈ strTrim s → '.' ∉ strTrim s →
      toFloat (some s) = pyFloat ((strTrim s).map (fun c => if c = ',' then '.' else c))) ∧
    (∀ s : List Char, ',' ∈ strTrim s → '.' ∈ strTrim s →
      toFloat (some s) = pyFloat ((strTrim s).filter (fun c => c ≠ ','))) ∧
    quantumEstimateStd lineMean =
      (some (0.18333333333333332 : ℚ), some (0.035322587464470735 : ℚ)) := by
  refine ⟨?_, ?_, ?_⟩
  · intro s h1 h2
    simp only [toFloat]
    rw [if_pos ⟨h1, h2⟩]
  · intro s h1 h2
    simp only [toFloat]
    rw [if_neg (fun hc => hc.2 h2), if_pos ⟨h1, h2⟩]
  · have hm : quantumMatch lineMean =
        some ("0,18333333333333332".data, "0,035322587464470735".data) := by decide
    simp only [quantumEstimateStd, hm, Prod.mk.injEq]
    constructor
    · have h2 : toFloat (some "0,18333333333333332".data) =
          (pyFloatParse (strTrim (((strTrim "0,18333333333333332".data)).map
            (fun c => if c = ',' then '.' else c)))).map floatLitVal := by rfl
      rw [h2, show pyFloatParse (strTrim (((strTrim "0,18333333333333332".data)).map
            (fun c => if c = ',' then '.' else c))) =
          some ⟨false, 0, 18333333333333332, 17, false, 0⟩ from by decide]
      norm_num [Option.map, floatLitVal]
    · have h2 : toFloat (some "0,035322587464470735".data) =
          (pyFloatParse (strTrim (((strTrim "0,035322587464470735".data)).map
            (fun c => if c = ',' then '.' else c)))).map floatLitVal := by rfl
      rw [h2, show pyFloatParse (strTrim (((strTrim "0,035322587464470735".data)).map
            (fun c => if c = ',' then '.' else c))) =
          some ⟨false, 0, 35322587464470735, 18, false, 0⟩ from by decide]
      norm_num [Option.map, floatLitVal]

/-- C6 witness: the locale rules applied to "0,5" (comma only) and "1,234.5"
(comma and dot). -/
theorem C6_locale_numeric_conversion_witness :
    toFloat (some "0,5".data) =
      pyFloat ((strTrim "0,5".data).map (fun c => if c = ',' then '.' else c)) ∧
    toFloat (some "1,234.5".data) =
      pyFloat ((strTrim "1,234.5".data).filter (fun c => c ≠ ',')) :=
  ⟨C6_locale_numeric_conversion.1 "0,5".data (by decide) (by decide),
   C6_locale_numeric_conversion.2.1 "1,234.5".data (by decide) (by decide)⟩

/-- Keys of a Python dict assignment: an entry of `dictInsert d k v` either
has a key of `d` or the key `k`. -/
theorem mem_dictInsert {d : List (ℕ × ℕ)} {k v a b : ℕ}
    (h : (a, b) ∈ dictInsert d k v) : (∃ c, (a, c) ∈ d) ∨ a = k := by
  unfold dictInsert at h
  split at h
  · rcases List.mem_map.mp h with ⟨p, hp, heq⟩
    by_cases hk : p.1 = k
    · rw [if_pos hk] at heq
      right
      exact (Prod.mk.injEq _ _ _ _ ▸ heq).1.symm
    · rw [if_neg hk] at heq
      left
      exact ⟨b, heq ▸ hp⟩
  · rcases List.mem_append.mp h with h | h
    · exact Or.inl ⟨b, h⟩
    · right
      simp only [List.mem_singleton, Prod.mk.injEq] at h
      exact h.1

/-- Every key in the histogram fold comes from the accumulator or from some
match's outcome group. -/
theorem mem_histFoldl : ∀ (ms : List (ℕ × ℕ × ℕ)) (acc : List (ℕ × ℕ)) (a b : ℕ),
    (a, b) ∈ ms.foldl (fun d m => dictInsert d m.1 m.2.2) acc →
    (∃ c, (a, c) ∈ acc) ∨ ∃ m ∈ ms, m.1 = a := by
  intro ms
  induction ms with
  | nil => exact fun acc a b h => Or.inl ⟨b, h⟩
  | cons m ms ih =>
    intro acc a b h
    rcases ih (dictInsert acc m.1 m.2.2) a b h with ⟨c, hc⟩ | ⟨m', hm', he⟩
    · rcases mem_dictInsert hc with ⟨c', hc'⟩ | he
      · exact Or.inl ⟨c', hc'⟩
      · exact Or.inr ⟨m, List.mem_cons_self m ms, he.symm⟩
    · exact Or.inr ⟨m', List.mem_cons_of_mem m hm', he⟩

/-- The denominator fold keeps the last match's denominator. -/
theorem foldl_last_denominator {D : ℕ} : ∀ (ms : List (ℕ × ℕ × ℕ)) (a : Option ℕ),
    (∀ m ∈ ms, m.2.1 = D) → ms ≠ [] →
    ms.foldl (fun _ m => some m.2.1) a = some D := by
  intro ms
  induction ms with
  | nil => exact fun a _ h => absurd rfl h
  | cons m ms ih =>
    intro a hall _
    by_cases hms : ms = []
    · subst hms
      simpa [List.foldl] using hall m (List.mem_cons_self m [])
    · exact ih (some m.2.1) (fun x hx => hall x (List.mem_cons_of_mem m hx)) hms

/-- C3 (amended): the histogram scanner constrains no outcome against the
denominator; but whenever every matched line carries the same denominator `D`
and an outcome below it, every key of the resulting `PhaseHistogram` lies in
`[0, D)` and the recorded denominator is `D`. -/
theorem C3_histogram_keys_amended :
    ∀ (text : List Char) (D : ℕ),
      (∀ m ∈ phaseMatches text, m.2.1 = D ∧ m.1 < D) →
      (∀ kc ∈ histogramCounts text, kc.1 < D) ∧
      (phaseMatches text ≠ [] → histogramDenominator text = some D) := by
  intro text D h
  constructor
  · rintro ⟨a, b⟩ hm
    rcases mem_histFoldl (phaseMatches text) [] a b hm with ⟨c, hc⟩ | ⟨m, hm', he⟩
    · exact absurd hc (List.not_mem_nil _)
    · exact he ▸ (h m hm').2
  · exact fun hne => foldl_last_denominator (phaseMatches text) none
      (fun m hm => (h m hm).1) hne

/-- C3 counterexample: the parser accepts the line
"  Phase 70/64 (t): 3 times" and records outcome key 70 with denominator 64,
outside `[0, 64)`. -/
theorem C3_histogram_keys_counterexample :
    histogramCounts textBad = [(70, 3)] ∧ histogramDenominator textBad = some 64 ∧
    ¬ (70 < 64) := by decide

/-- C3 witness: the amended theorem applied to the spec's worked two-line
histogram text. -/
theorem C3_histogram_keys_amended_witness :
    (histogramCounts textGood).all (fun kc => decide (kc.1 < 64)) = true ∧
    histogramDenominator textGood = some 64 := by
  have h := C3_histogram_keys_amended textGood 64 (by decide)
  exact ⟨List.all_eq_true.mpr (fun kc hkc => decide_eq_true (h.1 kc hkc)),
    h.2 (by decide)⟩

/-- C1 (amended): when both artifacts exist, one normalized candidate is
built from each; a missing or unparsable timestamp parses to the minimum,
timezone-naive, value.  When the two parsed timestamps carry the same
awareness — both with a UTC offset, or both without (unparsable counting as
without) — selection succeeds and returns the candidate whose timestamp is
the strictly later instant, with the ensemble candidate kept on ties.  When
exactly one of them carries an offset (e.g. one artifact's timestamp ends in
`Z` while the other's is missing), selection raises a `TypeError` instead of
returning a candidate. -/
theorem C1_latest_selection :
    ∀ (ep sp : Payload) (ce : CalRecord), loadEnsembleRecord ep = .ok ce →
      (((parseTimestampJ ce.timestamp).off.isSome =
          (parseTimestampJ (loadSingleRecord sp).timestamp).off.isSome) →
        ∃ b : Bool,
          pyGT (parseTimestampJ (loadSingleRecord sp).timestamp)
              (parseTimestampJ ce.timestamp) = .ok b ∧
          loadLatest (some ep) (some sp) =
            .ok (if b then loadSingleRecord sp else ce)) ∧
      (((parseTimestampJ ce.timestamp).off.isSome ≠
          (parseTimestampJ (loadSingleRecord sp).timestamp).off.isSome) →
        loadLatest (some ep) (some sp) = .error .typeError) := by
  intro ep sp ce hE
  have hload : loadLatest (some ep) (some sp) =
      Except.bind (pyGT (parseTimestampJ (loadSingleRecord sp).timestamp)
        (parseTimestampJ ce.timestamp))
        (fun b => .ok (if b then loadSingleRecord sp else ce)) := by
    simp only [loadLatest, hE, bind, Except.bind, pure, Except.pure, List.cons_append,
      List.nil_append, pyMaxByTimestamp]
  rcases hd1 : parseTimestampJ ce.timestamp with ⟨t1, o1⟩
  rcases hd2 : parseTimestampJ (loadSingleRecord sp).timestamp with ⟨t2, o2⟩
  rw [hd1, hd2] at hload
  constructor
  · intro hcomp
    cases o1 with
    | none =>
      cases o2 with
      | none => exact ⟨decide (t1 < t2), rfl, by rw [hload]; rfl⟩
      | some v2 => simp at hcomp
    | some v1 =>
      cases o2 with
      | none => simp at hcomp
      | some v2 => exact ⟨decide ((t1 : ℤ) - v1 < (t2 : ℤ) - v2), rfl, by rw [hload]; rfl⟩
  · intro hcomp
    cases o1 with
    | none =>
      cases o2 with
      | none => simp at hcomp
      | some v2 => rw [hload]; rfl
    | some v1 =>
      cases o2 with
      | none => rw [hload]; rfl
      | some v2 => simp at hcomp

/-- C1 counterexample: with an ensemble artifact whose timestamp is missing
and a single-run artifact timestamped `2026-02-22T10:05:00Z`, both candidates
are built, the single candidate's timestamp parses (it is not the minimum),
yet `load_latest` raises a `TypeError` instead of selecting it. -/
theorem C1_latest_selection_counterexample :
    loadEnsembleRecord epNoTimestamp = .ok ceX ∧
    parseTimestampJ (loadSingleRecord spAware).timestamp ≠ datetimeMin ∧
    loadLatest (some epNoTimestamp) (some spAware) = .error .typeError := by
  refine ⟨by rfl, by decide, by rfl⟩

/-- `math.atan2` inherits `Complex.arg`'s range. -/
theorem atan2_range (y x : ℝ) : -Real.pi < atan2 y x ∧ atan2 y x ≤ Real.pi :=
  ⟨Complex.neg_pi_lt_arg _, Complex.arg_le_pi _⟩

/-- The wrap sends `(-π, π]` into `[0, 2π)`. -/
theorem wrapPhase_bounds {x : ℝ} (h1 : -Real.pi < x) (h2 : x ≤ Real.pi) :
    0 ≤ wrapPhase x ∧ wrapPhase x < 2 * Real.pi := by
  have hpi := Real.pi_pos
  unfold wrapPhase
  split_ifs with h
  · exact ⟨by linarith, by linarith⟩
  · exact ⟨le_of_not_lt h, by linarith⟩

/-- C2 (amended): the circular amplitude/phase pair is undefined exactly when
the total count is zero or the magnitude of the count-normalized complex sum
is at most `1e-12` (the source tests `> 1e-12`); otherwise the phase is the
atan2-derived phase wrapped to `[0, 2π)`, normalized to a fraction of a turn
and folded by `min(f, 1−f)`, and the amplitude is `sin²(π·phase)`. -/
theorem C2_circular_mean :
    ∀ (hist : List (ℕ × ℕ)) (pb : ℕ),
      (circularStats hist (some pb) = none ↔
        totalCounts hist = 0 ∨ Complex.abs (circularMean hist pb) ≤ 1e-12) ∧
      (∀ a f : ℝ, circularStats hist (some pb) = some (a, f) →
        0 ≤ wrapPhase (atan2 (circularMean hist pb).im (circularMean hist pb).re) ∧
        wrapPhase (atan2 (circularMean hist pb).im (circularMean hist pb).re) <
          2 * Real.pi ∧
        f = min
          (wrapPhase (atan2 (circularMean hist pb).im (circularMean hist pb).re) /
            (2 * Real.pi))
          (1 - wrapPhase (atan2 (circularMean hist pb).im (circularMean hist pb).re) /
            (2 * Real.pi)) ∧
        a = Real.sin (Real.pi * f) ^ 2) := by
  intro hist pb
  have hw := wrapPhase_bounds
    (atan2_range (circularMean hist pb).im (circularMean hist pb).re).1
    (atan2_range (circularMean hist pb).im (circularMean hist pb).re).2
  constructor
  · simp only [circularStats]
    split_ifs with h1 h2 h3
    · simp [h1, totalCounts]
    · simp [h2.ne', h3.not_le]
    · simp [not_lt.mp h3]
    · simp [Nat.eq_zero_of_not_pos h2]
  · intro a f h
    refine ⟨hw.1, hw.2, ?_⟩
    revert h
    simp only [circularStats]
    split_ifs with h1 h2 h3
    · intro h; exact absurd h (by simp)
    · intro h
      have heq := Option.some.inj h
      have hf : f = min
          (wrapPhase (atan2 (circularMean hist pb).im (circularMean hist pb).re) /
            (2 * Real.pi))
          (1 - wrapPhase (atan2 (circularMean hist pb).im (circularMean hist pb).re) /
            (2 * Real.pi)) := (congrArg Prod.snd heq).symm
      refine ⟨hf, ?_⟩
      have ha : a = Real.sin (Real.pi * min
          (wrapPhase (atan2 (circularMean hist pb).im (circularMean hist pb).re) /
            (2 * Real.pi))
          (1 - wrapPhase (atan2 (circularMean hist pb).im (circularMean hist pb).re) /
            (2 * Real.pi))) ^ 2 := (congrArg Prod.fst heq).symm
      rw [ha, hf]
    · intro h; exact absurd h (by simp)
    · intro h; exact absurd h (by simp)

/-- The boundary histogram's count-normalized sum is the real number
`1e-12` exactly. -/
theorem histBoundary_mean : circularMean histBoundary 2 = ((1e-12 : ℝ) : ℂ) := by
  have hang0 : foldedAngle (2^2) 0 = 0 := by norm_num [foldedAngle]
  have hang2 : foldedAngle (2^2) 2 = Real.pi := by rw [foldedAngle]; norm_num; ring
  have hsum : complexSum (2^2) histBoundary = ((2:ℝ) : ℂ) := by
    simp only [complexSum, histBoundary, List.foldl, hang0, hang2, Real.cos_zero,
      Real.sin_zero, Real.cos_pi, Real.sin_pi]
    push_cast
    ring
  have htot : totalCounts histBoundary = 2000000000000 := by
    norm_num [totalCounts, histBoundary]
  rw [circularMean, hsum, htot]
  push_cast
  norm_num

/-- C2 counterexample: on the histogram `{0: 10¹²+1, 2: 10¹²−1}` with two
phase bits the count-normalized sum has magnitude exactly `1e-12` — not
below it — and total count `2·10¹² ≠ 0`, yet the source leaves the circular
pair undefined (it requires magnitude strictly above `1e-12`). -/
theorem C2_circular_mean_counterexample :
    circularStats histBoundary (some 2) = none ∧
    totalCounts histBoundary ≠ 0 ∧
    ¬ (Complex.abs (circularMean histBoundary 2) < 1e-12) := by
  have habs : Complex.abs (circularMean histBoundary 2) = 1e-12 := by
    rw [histBoundary_mean, Complex.abs_ofReal]
    norm_num
  have htot : totalCounts histBoundary = 2000000000000 := by
    norm_num [totalCounts, histBoundary]
  refine ⟨?_, by rw [htot]; norm_num, by rw [habs]; norm_num⟩
  simp only [circularStats]
  rw [if_neg (by simp [histBoundary] : ¬(histBoundary = [])),
    if_pos (by rw [htot]; norm_num : 0 < totalCounts histBoundary),
    if_neg (by rw [habs]; norm_num :
      ¬((1e-12 : ℝ) < Complex.abs (circularMean histBoundary 2)))]

/-- The worked histogram `{0: 98, 32: 22}` at six phase bits has
count-normalized sum `76/120` on the positive real axis. -/
theorem histW_mean : circularMean histW 6 = ((76/120 : ℝ) : ℂ) := by
  have hang0 : foldedAngle (2^6) 0 = 0 := by norm_num [foldedAngle]
  have hang32 : foldedAngle (2^6) 32 = Real.pi := by rw [foldedAngle]; norm_num; ring
  have hsum : complexSum (2^6) histW = ((76:ℝ) : ℂ) := by
    simp only [complexSum, histW, List.foldl, hang0, hang32, Real.cos_zero,
      Real.sin_zero, Real.cos_pi, Real.sin_pi]
    push_cast
    ring
  have htot : totalCounts histW = 120 := by norm_num [totalCounts, histW]
  rw [circularMean, hsum, htot]
  push_cast
  norm_num

/-- On the worked histogram the circular pair is defined and equals
`(0, 0)`: the mean points along angle zero. -/
theorem histW_stats : circularStats histW (some 6) = some (0, 0) := by
  have harg : atan2 (circularMean histW 6).im (circularMean histW 6).re = 0 := by
    have h1 : atan2 (circularMean histW 6).im (circularMean histW 6).re =
        Complex.arg (circularMean histW 6) := rfl
    rw [h1, histW_mean]
    exact Complex.arg_ofReal_of_nonneg (by norm_num)
  have habs : Complex.abs (circularMean histW 6) = 76/120 := by
    rw [histW_mean, Complex.abs_ofReal]
    norm_num
  simp only [circularStats]
  rw [if_neg (by simp [histW] : ¬(histW = [])),
    if_pos (by norm_num [totalCounts, histW] : 0 < totalCounts histW),
    if_pos (by rw [habs]; norm_num : (1e-12 : ℝ) < Complex.abs (circularMean histW 6))]
  rw [harg]
  have hwrap : wrapPhase 0 = 0 := by simp [wrapPhase]
  rw [hwrap]
  norm_num

/-- C2 witness: the amended theorem applied to the worked histogram, whose
circular pair is defined. -/
theorem C2_circular_mean_witness :
    circularStats histW (some 6) = some (0, 0) ∧
    0 ≤ wrapPhase (atan2 (circularMean histW 6).im (circularMean histW 6).re) ∧
    wrapPhase (atan2 (circularMean histW 6).im (circularMean histW 6).re) <
      2 * Real.pi ∧
    (0 : ℝ) = min
      (wrapPhase (atan2 (circularMean histW 6).im (circularMean histW 6).re) /
        (2 * Real.pi))
      (1 - wrapPhase (atan2 (circularMean histW 6).im (circularMean histW 6).re) /
        (2 * Real.pi)) ∧
    (0 : ℝ) = Real.sin (Real.pi * 0) ^ 2 := by
  have h := (C2_circular_mean histW 6).2 0 0 histW_stats
  exact ⟨histW_stats, h.1, h.2.1, h.2.2.1, h.2.2.2⟩

/-- C1 witness: the amended theorem applied to a pair of artifacts whose
timestamps are both aware, the single-run one five minutes later. -/
theorem C1_latest_selection_witness :
    pyGT (parseTimestampJ (loadSingleRecord spW).timestamp)
      (parseTimestampJ ceW.timestamp) = .ok true ∧
    loadLatest (some epW) (some spW) = .ok (loadSingleRecord spW) := by
  have h := (C1_latest_selection epW spW ceW (by rfl)).1 (by decide)
  rcases h with ⟨b, hb, hres⟩
  have hgt : pyGT (parseTimestampJ (loadSingleRecord spW).timestamp)
      (parseTimestampJ ceW.timestamp) = .ok true := by decide
  rw [hb] at hgt
  have hbt : b = true := (Except.ok.injEq _ _).mp hgt
  subst hbt
  exact ⟨hb, by simpa using hres⟩

/-- C4: the ensemble aggregates are computed over exactly the runs whose
amplitude field holds a numeric value — a run without one is skipped and the
aggregates are unchanged, never zero-filled — with mean `Σx/n`, population
standard deviation `√(Σ(x−mean)²/n)` and standard error `std/√n`; on the
inputs `[0.10, 0.12, 0.11]` the mean is exactly `0.11`, the population
standard deviation is `√(1/15000) ≈ 0.00816`, and the standard error is
`√(1/45000) ≈ 0.00471`. -/
theorem C4_ensemble_aggregation :
    (∀ (pre post : List JDict) (m : JDict),
      jnumVal (jget m "quantum_estimate") = none →
      ensembleAmplitudeStats (pre ++ m :: post) = ensembleAmplitudeStats (pre ++ post)) ∧
    (∀ ms : List JDict, collectFloat ms "quantum_estimate" ≠ [] →
      ensembleAmplitudeStats ms =
        (some (listMean (collectFloat ms "quantum_estimate")),
         some (listPstdev (collectFloat ms "quantum_estimate")),
         some (listPstdev (collectFloat ms "quantum_estimate") /
           Real.sqrt ((collectFloat ms "quantum_estimate").length : ℝ)))) ∧
    collectFloat msW "quantum_estimate" = [1/10, 3/25, 11/100] ∧
    listMean [1/10, 3/25, 11/100] = 11/100 ∧
    listPstdev [1/10, 3/25, 11/100] = Real.sqrt (1/15000) ∧
    (0.00816 : ℝ) < Real.sqrt (1/15000) ∧ Real.sqrt (1/15000) < 0.00817 ∧
    Real.sqrt (1/15000) / Real.sqrt 3 = Real.sqrt (1/45000) ∧
    (0.00471 : ℝ) < Real.sqrt (1/45000) ∧ Real.sqrt (1/45000) < 0.00472 := by
  refine ⟨?_, ?_, rfl, by norm_num [listMean], ?_, ?_, ?_, ?_, ?_, ?_⟩
  · intro pre post m hm
    have hcol : collectFloat (pre ++ m :: post) "quantum_estimate" =
        collectFloat (pre ++ post) "quantum_estimate" := by
      simp [collectFloat, List.filterMap_append, List.filterMap_cons, hm]
    simp only [ensembleAmplitudeStats, hcol]
  · intro ms hne
    simp [ensembleAmplitudeStats, hne]
  · have hmean : listMean [1/10, 3/25, 11/100] = 11/100 := by norm_num [listMean]
    rw [listPstdev, hmean]
    congr 1
    norm_num
  · exact (Real.lt_sqrt (by norm_num)).mpr (by norm_num)
  · exact (Real.sqrt_lt' (by norm_num)).mpr (by norm_num)
  · rw [← Real.sqrt_div (by norm_num : (0:ℝ) ≤ 1/15000) 3]
    norm_num
  · exact (Real.lt_sqrt (by norm_num)).mpr (by norm_num)
  · exact (Real.sqrt_lt' (by norm_num)).mpr (by norm_num)

/-- C4 witness: skipping an amplitude-free metrics block leaves the
aggregates of the three worked runs unchanged, and the aggregates equal the
stated formulas on them. -/
theorem C4_ensemble_aggregation_witness :
    ensembleAmplitudeStats (msW ++ [([] : JDict)]) = ensembleAmplitudeStats (msW ++ []) ∧
    ensembleAmplitudeStats msW =
      (some (listMean (collectFloat msW "quantum_estimate")),
       some (listPstdev (collectFloat msW "quantum_estimate")),
       some (listPstdev (collectFloat msW "quantum_estimate") /
         Real.sqrt ((collectFloat msW "quantum_estimate").length : ℝ))) :=
  ⟨C4_ensemble_aggregation.1 msW [] ([] : JDict) rfl,
   C4_ensemble_aggregation.2.1 msW (by
     rw [show collectFloat msW "quantum_estimate" = [1/10, 3/25, 11/100] from rfl]
     simp)⟩

end QaeRisk
